import Mathlib

/-!
Verification development for the Transaction-Parser repository.

The Python source is shallowly embedded: each definition below mirrors one
function (or one clearly delimited code path) of the repository.  Currency
amounts, which the source holds as Python floats, are modelled as exact
rationals; calendar dates are modelled as explicit year/month/day records
with the standard Gregorian day count, so that `datetime` subtraction in
days and `strftime` month keys are representable.
-/

/-! ## Character-list utilities (models of Python `str` methods)

Python strings are modelled as `String` / `List Char`; the `str.strip`,
`str.replace(c, '')`, `str.lower` and `str.upper` methods and the
substring test `needle in hay` are given explicit executable models. -/

/-- Model of Python `str.strip()`: drop whitespace from both ends. -/
def trimChars (cs : List Char) : List Char :=
  ((cs.dropWhile Char.isWhitespace).reverse.dropWhile Char.isWhitespace).reverse

/-- Model of Python `s.replace(c, '')`: remove every occurrence of one character. -/
def removeChar (c : Char) (cs : List Char) : List Char :=
  cs.filter (fun x => !(x == c))

/-- Model of Python `str.strip()` at `String` type. -/
def stripS (s : String) : String :=
  (trimChars s.toList).asString

/-- Model of Python `str.lower()` (ASCII case folding suffices for this app). -/
def lowerS (s : String) : String :=
  (s.toList.map Char.toLower).asString

/-- Model of Python `str.upper()`. -/
def upperS (s : String) : String :=
  (s.toList.map Char.toUpper).asString

/-- Model of the Python substring test `needle in hay`. -/
def containsSeq (needle : List Char) : List Char → Bool
  | [] => needle.isEmpty
  | c :: cs => needle.isPrefixOf (c :: cs) || containsSeq needle cs

/-! ## Numeric literal parsing (models of Python `float()` and `int()`)

`pyFloat?` models the plain decimal subset of Python `float()` —
optional surrounding whitespace, an optional sign, an integer part and an
optional fractional part, with at least one digit.  Exponents, `inf`,
`nan` and underscore separators are not modelled; every string the
repository's claims exercise lies in the modelled subset, and on that
subset the model returns the exact rational value.  A `none` result
models `float()` raising `ValueError`. -/

/-- Decimal value of a digit list (most significant first). -/
def digitsVal (cs : List Char) : Nat :=
  cs.foldl (fun a c => a * 10 + (c.toNat - 48)) 0

/-- Parse an unsigned decimal literal: digits, then optionally a point and
more digits; at least one digit overall; no other characters. -/
def parseUnsignedFloat? (cs : List Char) : Option ℚ :=
  let ip := cs.takeWhile Char.isDigit
  let rest := cs.dropWhile Char.isDigit
  match rest with
  | [] => if ip.isEmpty then none else some (digitsVal ip)
  | '.' :: rest2 =>
      let fp := rest2.takeWhile Char.isDigit
      let rest3 := rest2.dropWhile Char.isDigit
      if rest3.isEmpty && !(ip.isEmpty && fp.isEmpty) then
        -- the value ip + fp/10^len, written with `mkRat` so that it
        -- evaluates by kernel reduction
        some (mkRat (digitsVal ip * 10 ^ fp.length + digitsVal fp) (10 ^ fp.length))
      else none
  | _ => none

/-- Model of Python `float()` on its plain decimal subset. -/
def pyFloat? (cs : List Char) : Option ℚ :=
  match trimChars cs with
  | '-' :: rest => (parseUnsignedFloat? rest).map Neg.neg
  | '+' :: rest => parseUnsignedFloat? rest
  | cs2 => parseUnsignedFloat? cs2

/-- Model of Python `int()` on decimal strings: optional surrounding
whitespace, optional sign, one or more digits. `none` models `ValueError`. -/
def pyInt? (s : String) : Option Int :=
  let core : List Char → Option Int := fun ds =>
    if !ds.isEmpty && ds.all Char.isDigit then some (digitsVal ds : Int) else none
  match trimChars s.toList with
  | '-' :: rest => (core rest).map Neg.neg
  | '+' :: rest => core rest
  | cs2 => core cs2

/-! ## Calendar dates

Dates are explicit Gregorian year/month/day records.  `toOrdinal` is the
standard civil day count (Hinnant's `days_from_civil`), so that
`dateDiffDays a b` equals the `.days` of the Python `datetime`
subtraction `a - b`; `dateLE` is the field-lexicographic order used by
`datetime` comparison; `monthKey` stands for the `strftime('%Y-%m')`
aggregation key, which separates exactly the (year, month) pairs. -/

structure Date where
  year : Int
  month : Int
  day : Int
  deriving DecidableEq, Repr

/-- Gregorian day count (days since 1970-01-01 for valid dates). -/
def toOrdinal (dt : Date) : Int :=
  let y := if dt.month ≤ 2 then dt.year - 1 else dt.year
  let era := y.fdiv 400
  let yoe := y - era * 400
  let mp := (dt.month + 9).emod 12
  let doy := (153 * mp + 2).fdiv 5 + dt.day - 1
  let doe := yoe * 365 + yoe.fdiv 4 - yoe.fdiv 100 + doy
  era * 146097 + doe - 719468

/-- Model of `(a - b).days` on Python dates. -/
def dateDiffDays (a b : Date) : Int :=
  toOrdinal a - toOrdinal b

/-- Field-lexicographic order, as used by Python `datetime` comparison. -/
def dateLE (a b : Date) : Bool :=
  a.year < b.year ||
    (a.year == b.year &&
      (a.month < b.month || (a.month == b.month && a.day ≤ b.day)))

/-- Model of the `strftime('%Y-%m')` month key. -/
def monthKey (d : Date) : Int × Int :=
  (d.year, d.month)

/-- Leap year test (Gregorian). -/
def isLeapYear (y : Int) : Bool :=
  y.emod 4 == 0 && (y.emod 100 != 0 || y.emod 400 == 0)

/-- Number of days in a month, matching `datetime`'s validation. -/
def daysInMonth (y m : Int) : Int :=
  if m == 2 then (if isLeapYear y then 29 else 28)
  else if m == 4 || m == 6 || m == 9 || m == 11 then 30
  else 31

/-- Parse a one- or two-digit field in `[lo, hi]`, as CPython's strptime
regex for `%m` / `%d` does (two digits are consumed when the first two
characters are both digits, which never conflicts with the following
literal `/` of the pattern). -/
def takeOneOrTwoDigits (lo hi : Nat) : List Char → Option (Nat × List Char)
  | c1 :: c2 :: rest =>
      if c1.isDigit && c2.isDigit then
        let v := (c1.toNat - 48) * 10 + (c2.toNat - 48)
        if lo ≤ v && v ≤ hi then some (v, rest) else none
      else if c1.isDigit && 1 ≤ c1.toNat - 48 then some (c1.toNat - 48, c2 :: rest)
      else none
  | [c1] =>
      if c1.isDigit && 1 ≤ c1.toNat - 48 then some (c1.toNat - 48, []) else none
  | [] => none

/-- Parse exactly four digits, as strptime's `%Y` regex does. -/
def takeYear4 : List Char → Option (Nat × List Char)
  | a :: b :: c :: d :: rest =>
      if a.isDigit && b.isDigit && c.isDigit && d.isDigit then
        some (digitsVal [a, b, c, d], rest)
      else none
  | _ => none

/-- Expect a literal character. -/
def expectChar (c : Char) : List Char → Option (List Char)
  | x :: rest => if x == c then some rest else none
  | [] => none

/-- Model of `datetime.strptime(s, '%m/%d/%Y')`: month 1-12 (one or two
digits), `/`, day (one or two digits), `/`, a four-digit year ≥ 1, with
the day validated against the month length and nothing left over.
`none` models `ValueError`. -/
def parseDateMDY (cs : List Char) : Option Date :=
  match takeOneOrTwoDigits 1 12 cs with
  | none => none
  | some (m, r1) =>
    match expectChar '/' r1 with
    | none => none
    | some r2 =>
      match takeOneOrTwoDigits 1 31 r2 with
      | none => none
      | some (d, r3) =>
        match expectChar '/' r3 with
        | none => none
        | some r4 =>
          match takeYear4 r4 with
          | none => none
          | some (y, r5) =>
            if r5.isEmpty && 1 ≤ y && (d : Int) ≤ daysInMonth (y : Int) (m : Int) then
              some ⟨(y : Int), (m : Int), (d : Int)⟩
            else none

/-- Model of `datetime.strptime` restricted to the `%m/%d/%Y` pattern —
the only date pattern used by the registered bank formats, the Amazon
order loader and header detection.  Any other pattern string is modelled
as failing to parse. -/
def strptime (s : String) (fmt : String) : Option Date :=
  if fmt = "%m/%d/%Y" then parseDateMDY s.toList else none

/-! ## Amazon order reconciliation

Models `TransactionParser._is_amazon_transaction`,
`TransactionParser._find_amazon_order` (parser.py lines 102-126) and the
identical caller blocks of `_process_row_dict` / `_process_row_list`
(lines 216-223 and 254-261).  The parser's `matched_amazon_orders` set is
modelled as a list of order ids queried by membership. -/

structure AmazonOrder where
  id : Nat
  date : Date
  total : ℚ
  items : String
  deriving DecidableEq, Repr

/-- Model of `_is_amazon_transaction`: the upper-cased description
contains `AMAZON.COM` or `AMAZON MKTPL`. -/
def isAmazonTransaction (description : String) : Bool :=
  let u := (upperS description).toList
  containsSeq "AMAZON.COM".toList u || containsSeq "AMAZON MKTPL".toList u

/-- Eligibility test applied to each order inside `_find_amazon_order`'s
loop: not yet consumed, order date at most 7 days before the transaction
date (and not after it), and totals within 0.01 of each other. -/
def amazonEligible (matched : List Nat) (date : Date) (amountAbs : ℚ)
    (o : AmazonOrder) : Bool :=
  !(matched.contains o.id) &&
    (decide (0 ≤ dateDiffDays date o.date) && decide (dateDiffDays date o.date ≤ 7) &&
      decide (|o.total - amountAbs| < Rat.divInt 1 100))

/-- Model of `_find_amazon_order`: collect the eligible orders in pool
order and take the first (the source builds the full `matches` list and
returns `matches[0]`). -/
def findAmazonOrder (orders : List AmazonOrder) (matched : List Nat)
    (date : Date) (amount : ℚ) : Option AmazonOrder :=
  if orders.isEmpty then none
  else (orders.filter (amazonEligible matched date |amount|)).head?

/-- Model of the Amazon block shared by `_process_row_dict` and
`_process_row_list`: on a match the order id is recorded as consumed and
returned, and the description is replaced by the order's item text when
that text is truthy (non-empty).  Returns the (possibly replaced)
description, the matched order id, and the updated consumed set. -/
def applyAmazonMatch (orders : List AmazonOrder) (matched : List Nat)
    (date : Date) (amount : ℚ) (description : String) :
    String × Option Nat × List Nat :=
  if isAmazonTransaction description then
    match findAmazonOrder orders matched date amount with
    | some o =>
        (if o.items ≠ "" then o.items else description, some o.id, o.id :: matched)
    | none => (description, none, matched)
  else (description, none, matched)

/-! ## Transactions and row normalization

Models `_process_row_dict`, `_process_row_list` and
`parse_csv_with_callback` (parser.py lines 128-270).  A header-based CSV
row is an association list from column name to cell text; a headerless
row is a list of cell texts. -/

structure Txn where
  date : Date
  description : String
  amount : ℚ
  category : Option String
  source : String
  amazon_order_id : Option Nat
  deriving DecidableEq, Repr

/-- A `csv.DictReader` row: each header column maps to its cell text, or
to `none` — the `restval=None` filling of a row shorter than the header
row.  A column name absent from the list models a column absent from the
header (so `row[col]` raises `KeyError`). -/
def RowDict : Type := List (String × Option String)

/-- Model of Python dict lookup `row[col]`: the outer `none` models
`KeyError`; a `some none` result is a `None` cell of a short row. -/
def lookupRow (row : RowDict) (col : String) : Option (Option String) :=
  (List.find? (fun p => p.1 == col) row).map (fun p => p.2)

/-- Model of `row.get(col, '')`: the default replaces an absent column,
not a `None` cell (the key is present for every header column). -/
def rowGet (row : RowDict) (col : String) : Option String :=
  match lookupRow row col with
  | none => some ""
  | some c => c

/-- The arguments of `parse_csv_with_callback` that describe the CSV
layout (the GUI passes them straight from a `BankFormat`). -/
structure ParseConfig where
  date_col : String
  desc_col : String
  amount_col : String
  date_format : String
  invert_amounts : Bool
  debit_col : Option String
  credit_col : Option String
  deriving DecidableEq, Repr

/-- Python truthiness of an optional string argument (`None` and the
empty string are falsy). -/
def truthyOpt : Option String → Bool
  | none => false
  | some s => !s.isEmpty

/-- The debit/credit cell cleaning of `_process_row_dict` lines 187-192:
`row.get(col, '').strip()` then removal of `$` and `,`.  The result is
`none` exactly when the cell is the `None` of a short row, on which the
source's `.strip()` raises an uncaught `AttributeError`. -/
def cleanedCell (row : RowDict) (col : Option String) : Option (List Char) :=
  (rowGet row (col.getD "")).map
    (fun s => removeChar ',' (removeChar '$' (trimChars s.toList)))

/-- The cell cleaning of the single-amount path (lines 203-204 and 238):
strip, then remove `$`, `,` and `"`. -/
def cleanAmountChars (raw : String) : List Char :=
  removeChar '"' (removeChar ',' (removeChar '$' (trimChars raw.toList)))

/-- The single-amount cleaning shared verbatim by `_process_row_dict`
lines 203-207 and `_process_row_list` lines 238-241: strip, remove `$`,
`,` and `"`, then turn a parenthesized string into a `-`-prefixed one. -/
def cleanSingleAmount (raw : String) : List Char :=
  let cleaned := cleanAmountChars raw
  if cleaned.head? == some '(' && cleaned.getLast? == some ')' then
    '-' :: (cleaned.drop 1).dropLast
  else cleaned

/-- Single-amount parsing before the inversion flag: clean, then
`float(...)` (lines 203-209 / 238-243). -/
def parseSingleAmountRaw (raw : String) : Option ℚ :=
  pyFloat? (cleanSingleAmount raw)

/-- Single-amount parsing including the `invert_amounts` negation
(lines 203-212 / 238-246). -/
def parseSingleAmount (raw : String) (invert : Bool) : Option ℚ :=
  (parseSingleAmountRaw raw).map (fun q => if invert then -q else q)

/-- Outcome of the amount extraction of one header-based row: a caught
`KeyError`/`ValueError` or the explicit no-amount skip (row dropped), an
uncaught `AttributeError` from `.strip()` on a `None` cell of a short
row (aborts the whole file), or the amount. -/
inductive AmountResult where
  | skipRow : AmountResult
  | fileError : AmountResult
  | ok : ℚ → AmountResult
  deriving DecidableEq, Repr

/-- Amount extraction of `_process_row_dict` (lines 186-212): with a
truthy debit/credit column pair both cells are fetched and stripped
(a `None` cell aborts the file), then a non-empty cleaned debit cell
gives `-abs(debit)`, else a non-empty cleaned credit cell gives
`abs(credit)`, else the row is skipped; otherwise the single amount
column is looked up (`KeyError` → skip, `None` cell → abort) and parsed
(`ValueError` → skip), with `invert_amounts` applied. -/
def computeAmountDict (cfg : ParseConfig) (row : RowDict) : AmountResult :=
  if truthyOpt cfg.debit_col && truthyOpt cfg.credit_col then
    match cleanedCell row cfg.debit_col, cleanedCell row cfg.credit_col with
    | some debitStr, some creditStr =>
        if !debitStr.isEmpty then
          match pyFloat? debitStr with
          | some q => .ok (-|q|)
          | none => .skipRow
        else if !creditStr.isEmpty then
          match pyFloat? creditStr with
          | some q => .ok |q|
          | none => .skipRow
        else .skipRow
    | _, _ => .fileError
  else
    match lookupRow row cfg.amount_col with
    | none => .skipRow
    | some none => .fileError
    | some (some raw) =>
      match parseSingleAmount (stripS raw) cfg.invert_amounts with
      | some q => .ok q
      | none => .skipRow

/-- Outcome of one header-based row: a caught per-row error or the
debit/credit skip (row dropped, loop continues), an uncaught
`AttributeError` from `.strip()` on a `None` cell (not among the
`except (KeyError, ValueError)` of line 147 — the whole file aborts),
or a transaction with the updated consumed-order set. -/
inductive DictRowOutcome where
  | skipRow : DictRowOutcome
  | fileError : DictRowOutcome
  | ok : Txn → List Nat → DictRowOutcome
  deriving DecidableEq, Repr

/-- Model of `_process_row_dict` together with the field lookups its
caller performs inside the same `try` block (lines 140-149 and 181-232):
date and description cells are looked up and stripped (a missing column
is a caught `KeyError`, a `None` cell of a short row an uncaught
`AttributeError`), the amount is extracted, the date is parsed, and the
Amazon block runs. -/
def processRowDict (cfg : ParseConfig) (source : String)
    (orders : List AmazonOrder) (matched : List Nat) (row : RowDict) :
    DictRowOutcome :=
  match lookupRow row cfg.date_col with
  | none => .skipRow
  | some none => .fileError
  | some (some rawDate) =>
    match lookupRow row cfg.desc_col with
    | none => .skipRow
    | some none => .fileError
    | some (some rawDesc) =>
      let dateStr := stripS rawDate
      let description := stripS rawDesc
      match computeAmountDict cfg row with
      | .skipRow => .skipRow
      | .fileError => .fileError
      | .ok amount =>
        match strptime dateStr cfg.date_format with
        | none => .skipRow
        | some date =>
          let r := applyAmazonMatch orders matched date amount description
          .ok { date := date, description := r.1, amount := amount,
                category := none, source := source,
                amazon_order_id := r.2.1 } r.2.2

/-- Python list indexing `row[i]`, including negative indices;
`none` models `IndexError`. -/
def listIndex? (row : List String) (i : Int) : Option String :=
  if 0 ≤ i then row.get? i.toNat
  else if (-i) ≤ (row.length : Int) then row.get? (row.length - (-i).toNat)
  else none

/-- Outcome of one headerless-CSV row: a caught per-row error (row
skipped), an uncaught `TypeError` (`row[None]` when the amount column
selector is empty — this aborts the whole file), or a transaction. -/
inductive ListRowOutcome where
  | skipRow : ListRowOutcome
  | fileError : ListRowOutcome
  | ok : Txn → List Nat → ListRowOutcome
  deriving DecidableEq, Repr

/-- Model of one iteration of the headerless branch of
`parse_csv_with_callback` (lines 153-168) together with
`_process_row_list` (lines 234-270): the column selectors are converted
with `int(...)` (`ValueError` → skip), cells are indexed
(`IndexError` → skip), and the amount selector being falsy reaches
`row[None]`, an uncaught `TypeError`. -/
def processRowList (cfg : ParseConfig) (source : String)
    (orders : List AmazonOrder) (matched : List Nat) (row : List String) :
    ListRowOutcome :=
  match pyInt? cfg.date_col, pyInt? cfg.desc_col with
  | some dateIdx, some descIdx =>
    if cfg.amount_col.isEmpty then
      -- `amount_idx = None`; the indexing `row[amount_idx]` in
      -- `_process_row_list` raises an uncaught TypeError…
      match listIndex? row dateIdx, listIndex? row descIdx with
      | some _, some _ => .fileError
      | _, _ => .skipRow   -- …unless the date/desc indexing already failed
    else
      match pyInt? cfg.amount_col with
      | none => .skipRow
      | some amountIdx =>
        match listIndex? row dateIdx, listIndex? row descIdx with
        | some rawDate, some rawDesc =>
          (match listIndex? row amountIdx with
           | none => .skipRow
           | some rawAmount =>
             match parseSingleAmount (stripS rawAmount) cfg.invert_amounts with
             | none => .skipRow
             | some amount =>
               let description := (removeChar '"' (trimChars rawDesc.toList)).asString
               let dateStr := (removeChar '"' (trimChars rawDate.toList)).asString
               match strptime dateStr cfg.date_format with
               | none => .skipRow
               | some date =>
                 let r := applyAmazonMatch orders matched date amount description
                 .ok { date := date, description := r.1, amount := amount,
                       category := none, source := source,
                       amazon_order_id := r.2.1 } r.2.2)
        | _, _ => .skipRow
  | _, _ => .skipRow

/-! ## Categorization

Models `_normalize_description` (line 99-100), the categorization pass of
`parse_csv_with_callback` (lines 170-178) and the mapping write performed
by the GUI's `apply_category_direct` (main_window.py lines 958-959).  The
parser's `mappings` dict is modelled as an association list where a new
binding is prepended, shadowing any older binding of the same key — the
last-write-wins semantics of a Python dict assignment. -/

def Mappings : Type := List (String × String)

/-- Model of `_normalize_description`: lower-case, then strip. -/
def normalize_description (description : String) : String :=
  stripS (lowerS description)

/-- Model of dict lookup `mappings[k]` / the test `k in mappings`. -/
def lookupMapping (m : Mappings) (k : String) : Option String :=
  (List.find? (fun p => p.1 == k) m).map (fun p => p.2)

/-- Model of `mappings[normalize(description)] = category`. -/
def learn (m : Mappings) (description category : String) : Mappings :=
  (normalize_description description, category) :: m

/-- One iteration of the categorization loop: a transaction whose
category is unset receives the learned category for its normalized
description, or `"Uncategorized"`. -/
def categorizeTxn (m : Mappings) (t : Txn) : Txn :=
  if t.category = none then
    match lookupMapping m (normalize_description t.description) with
    | some c => { t with category := some c }
    | none => { t with category := some "Uncategorized" }
  else t

/-! ## Whole-file parsing

Models the two loops of `parse_csv_with_callback` followed by the
categorization pass.  A skipped row leaves the accumulated transactions
and the consumed-order set unchanged; the headerless mode can abort the
whole file (`none`) on the uncaught `TypeError` described above. -/

/-- One header-based row, threading the abort state: append the
transaction on success, keep the state on a skip, abort on an uncaught
`AttributeError`. -/
def parseStepDict (cfg : ParseConfig) (source : String)
    (orders : List AmazonOrder) (acc : Option (List Txn × List Nat))
    (row : RowDict) : Option (List Txn × List Nat) :=
  match acc with
  | none => none
  | some (ts, matched) =>
    match processRowDict cfg source orders matched row with
    | .ok t matched2 => some (ts ++ [t], matched2)
    | .skipRow => some (ts, matched)
    | .fileError => none

/-- Model of `parse_csv_with_callback` with `has_header=True`: fold the
rows, then categorize every produced transaction.  Also returns the
final consumed-order set (the mutated `matched_amazon_orders`); `none`
models the file-level abort on a short row's `None` cell. -/
def parseCsvDict (cfg : ParseConfig) (source : String)
    (orders : List AmazonOrder) (matched0 : List Nat) (m : Mappings)
    (rows : List RowDict) : Option (List Txn × List Nat) :=
  match rows.foldl (parseStepDict cfg source orders) (some ([], matched0)) with
  | none => none
  | some (ts, matched) => some (ts.map (categorizeTxn m), matched)

/-- One headerless row, threading the abort state. -/
def parseStepList (cfg : ParseConfig) (source : String)
    (orders : List AmazonOrder) (acc : Option (List Txn × List Nat))
    (row : List String) : Option (List Txn × List Nat) :=
  match acc with
  | none => none
  | some (ts, matched) =>
    match processRowList cfg source orders matched row with
    | .ok t matched2 => some (ts ++ [t], matched2)
    | .skipRow => some (ts, matched)
    | .fileError => none

/-- Model of `parse_csv_with_callback` with `has_header=False`; `none`
models the file-level abort. -/
def parseCsvList (cfg : ParseConfig) (source : String)
    (orders : List AmazonOrder) (matched0 : List Nat) (m : Mappings)
    (rows : List (List String)) : Option (List Txn × List Nat) :=
  match rows.foldl (parseStepList cfg source orders) (some ([], matched0)) with
  | none => none
  | some (ts, matched) => some (ts.map (categorizeTxn m), matched)

/-! ## Monthly aggregation

Models `TransactionParser.generate_summary` (parser.py lines 272-301).
The two `defaultdict`s are modelled as association lists whose update
creates the default entry on first access; the category lists are the
parser's `PAYMENT_CATEGORIES` / `EXPENSE_CATEGORIES` (configurable, so
taken as parameters); the stable Python `list.sort` is `List.mergeSort`
with the `datetime` comparison. -/

/-- The parser's reserved sentinel category. -/
def ignoreCategory : String := "Ignore"

/-- Python membership test `category in categories` where the category
may still be `None`. -/
def optMem (c : Option String) (cats : List String) : Bool :=
  match c with
  | some s => cats.contains s
  | none => false

structure MonthTotals where
  expenses : ℚ
  income : ℚ
  deriving DecidableEq, Repr

/-- Update of `monthly_data[month_key]`: the `defaultdict` creates a
`{'expenses': 0, 'income': 0}` entry on first access, then `f` is the
`+=` performed on it. -/
def mdUpdate (m : List ((Int × Int) × MonthTotals)) (k : Int × Int)
    (f : MonthTotals → MonthTotals) : List ((Int × Int) × MonthTotals) :=
  match m with
  | [] => [(k, f ⟨0, 0⟩)]
  | (k2, v) :: rest =>
      if k2 = k then (k2, f v) :: rest else (k2, v) :: mdUpdate rest k f

/-- A fresh `{cat: 0 for cat in EXPENSE_CATEGORIES}` row. -/
def initBreakdownRow (expCats : List String) : List (String × ℚ) :=
  expCats.map (fun c => (c, 0))

/-- `row[cat] += a` on a breakdown row. -/
def bumpCat (cat : String) (a : ℚ) : List (String × ℚ) → List (String × ℚ)
  | [] => []
  | (c, v) :: rest =>
      if c == cat then (c, v + a) :: rest else (c, v) :: bumpCat cat a rest

/-- Update of `monthly_expense_breakdown[month_key][cat]`. -/
def bdUpdate (expCats : List String)
    (bd : List ((Int × Int) × List (String × ℚ))) (k : Int × Int)
    (cat : String) (a : ℚ) : List ((Int × Int) × List (String × ℚ)) :=
  match bd with
  | [] => [(k, bumpCat cat a (initBreakdownRow expCats))]
  | (k2, row) :: rest =>
      if k2 = k then (k2, bumpCat cat a row) :: rest
      else (k2, row) :: bdUpdate expCats rest k cat a

/-- The mutable state of `generate_summary`'s loop. -/
structure SummaryAcc where
  expenses : List Txn
  income : List Txn
  payments : List Txn
  monthly : List ((Int × Int) × MonthTotals)
  breakdown : List ((Int × Int) × List (String × ℚ))
  deriving DecidableEq, Repr

/-- One iteration of `generate_summary`'s loop (lines 279-295). -/
def summaryStep (payCats expCats : List String) (acc : SummaryAcc) (t : Txn) :
    SummaryAcc :=
  if t.category = some ignoreCategory then acc
  else
    let k := monthKey t.date
    if optMem t.category payCats then
      { acc with payments := acc.payments ++ [t] }
    else if t.amount < 0 then
      let a := |t.amount|
      { acc with
        expenses := acc.expenses ++ [t],
        monthly := mdUpdate acc.monthly k (fun v => { v with expenses := v.expenses + a }),
        breakdown :=
          if optMem t.category expCats then
            bdUpdate expCats acc.breakdown k ((t.category).getD "") a
          else acc.breakdown }
    else
      { acc with
        income := acc.income ++ [t],
        monthly := mdUpdate acc.monthly k (fun v => { v with income := v.income + t.amount }) }

/-- The result tuple of `generate_summary`. -/
structure Summary where
  expenses : List Txn
  income : List Txn
  payments : List Txn
  monthly : List ((Int × Int) × MonthTotals)
  breakdown : List ((Int × Int) × List (String × ℚ))
  deriving DecidableEq, Repr

/-- Model of `generate_summary`: classify every transaction, then sort
the three bucket lists by date (stable sort with `datetime` order). -/
def generate_summary (payCats expCats : List String) (txns : List Txn) :
    Summary :=
  let acc := txns.foldl (summaryStep payCats expCats)
    { expenses := [], income := [], payments := [], monthly := [], breakdown := [] }
  { expenses := acc.expenses.mergeSort (fun a b => dateLE a.date b.date),
    income := acc.income.mergeSort (fun a b => dateLE a.date b.date),
    payments := acc.payments.mergeSort (fun a b => dateLE a.date b.date),
    monthly := acc.monthly,
    breakdown := acc.breakdown }

/-- Total of the per-month expense column of `monthly_data`. -/
def sumMonthlyExpenses (m : List ((Int × Int) × MonthTotals)) : ℚ :=
  (m.map (fun p => p.2.expenses)).sum

/-- Total of the per-month income column of `monthly_data`. -/
def sumMonthlyIncome (m : List ((Int × Int) × MonthTotals)) : ℚ :=
  (m.map (fun p => p.2.income)).sum

/-! ## Bank format registry

Models `config/bank_formats.py`: the `BankFormat` class, the
`BANK_FORMATS` dict (an insertion-ordered dict, modelled as a keyed
list), and `detect_bank_format_from_headers` split into its header-based
pass (lines 142-158) and its headerless pass (lines 160-182). -/

structure BankFormat where
  name : String
  date_col : String
  desc_col : String
  amount_col : Option String
  debit_col : Option String
  credit_col : Option String
  date_format : String
  invert_amounts : Bool
  description : String
  has_header : Bool
  deriving DecidableEq, Repr

def appleCard : BankFormat :=
  { name := "Apple Card", date_col := "Transaction Date", desc_col := "Merchant",
    amount_col := some "Amount (USD)", debit_col := none, credit_col := none,
    date_format := "%m/%d/%Y", invert_amounts := true,
    description := "Apple Card CSV export format", has_header := true }

def capitalOne : BankFormat :=
  { name := "Capital One", date_col := "Transaction Date", desc_col := "Description",
    amount_col := none, debit_col := some "Debit", credit_col := some "Credit",
    date_format := "%m/%d/%Y", invert_amounts := false,
    description := "Capital One CSV export with separate Debit/Credit columns",
    has_header := true }

def chase : BankFormat :=
  { name := "Chase", date_col := "Transaction Date", desc_col := "Description",
    amount_col := some "Amount", debit_col := none, credit_col := none,
    date_format := "%m/%d/%Y", invert_amounts := false,
    description := "Chase Bank CSV export format", has_header := true }

def wellsFargoBank : BankFormat :=
  { name := "Wells Fargo Bank", date_col := "0", desc_col := "4",
    amount_col := some "1", debit_col := none, credit_col := none,
    date_format := "%m/%d/%Y", invert_amounts := false,
    description := "Wells Fargo Checking - headerless CSV format",
    has_header := false }

def customFormat : BankFormat :=
  { name := "Custom", date_col := "Date", desc_col := "Description",
    amount_col := some "Amount", debit_col := none, credit_col := none,
    date_format := "%m/%d/%Y", invert_amounts := false,
    description := "Custom format - manually configure column names",
    has_header := true }

/-- The `BANK_FORMATS` dict in its insertion order. -/
def BANK_FORMATS : List (String × BankFormat) :=
  [("apple_card", appleCard), ("capital_one", capitalOne), ("chase", chase),
   ("wells_fargo_bank", wellsFargoBank), ("custom", customFormat)]

/-- Model of `BANK_FORMATS.get(key)`. -/
def bankFormatsGet (key : String) : Option BankFormat :=
  (List.find? (fun p => p.1 == key) BANK_FORMATS).map (fun p => p.2)

/-- Model of `BANK_FORMATS.values()`. -/
def bankFormatValues : List BankFormat :=
  BANK_FORMATS.map (fun p => p.2)

/-- The `required_cols` list built for one format (lines 148-154):
date and description, then the amount column when truthy, else the
debit and credit columns when both are truthy. -/
def requiredCols (fmt : BankFormat) : List String :=
  let base := [fmt.date_col, fmt.desc_col]
  if truthyOpt fmt.amount_col then base ++ [fmt.amount_col.getD ""]
  else if truthyOpt fmt.debit_col && truthyOpt fmt.credit_col then
    base ++ [fmt.debit_col.getD "", fmt.credit_col.getD ""]
  else base

/-- The coverage test of line 157: every required column is present
verbatim among the (already trimmed) headers. -/
def headerCoverage (normalizedHeaders : List String) (fmt : BankFormat) : Bool :=
  (requiredCols fmt).all (fun col => normalizedHeaders.contains col)

/-- The header-based pass (lines 142-158): the first registered format
that is neither the `Custom` format nor headerless and whose required
columns are all present. -/
def detectHeaderPass (headers : List String) : Option BankFormat :=
  let normalized := headers.map stripS
  List.find?
    (fun fmt => !(fmt.name == "Custom") && fmt.has_header && headerCoverage normalized fmt)
    bankFormatValues

/-- The headerless pass (lines 160-182): with at least five fields,
field 0 must parse as a `%m/%d/%Y` date and field 1 (commas removed) as
a float, in which case the registered headerless format is returned. -/
def detectHeaderlessPass (headers : List String) : Option BankFormat :=
  let normalized := headers.map stripS
  if 5 ≤ normalized.length then
    match parseDateMDY (normalized.getD 0 "").toList with
    | none => none
    | some _ =>
      match pyFloat? (removeChar ',' (normalized.getD 1 "").toList) with
      | none => none
      | some _ => bankFormatsGet "wells_fargo_bank"
  else none

/-- Model of `detect_bank_format_from_headers`: empty input finds
nothing; otherwise the header-based pass, then the headerless pass. -/
def detect_bank_format_from_headers (headers : List String) : Option BankFormat :=
  if headers.isEmpty then none
  else
    match detectHeaderPass headers with
    | some fmt => some fmt
    | none => detectHeaderlessPass headers

/-! ## Helper lemmas -/

theorem head?_filter_eq_find? {α : Type} (p : α → Bool) :
    ∀ l : List α, (l.filter p).head? = l.find? p := by
  intro l
  induction l with
  | nil => rfl
  | cons a l ih =>
      by_cases h : p a <;> simp [List.filter_cons, List.find?_cons, h, ih]

theorem findAmazonOrder_eq_find? (orders : List AmazonOrder) (matched : List Nat)
    (date : Date) (amount : ℚ) :
    findAmazonOrder orders matched date amount
      = orders.find? (amazonEligible matched date |amount|) := by
  unfold findAmazonOrder
  cases orders with
  | nil => rfl
  | cons o os => simp [head?_filter_eq_find?]

theorem find?_split {α : Type} {p : α → Bool} :
    ∀ {l : List α} {a : α}, l.find? p = some a →
      ∃ l1 l2, l = l1 ++ a :: l2 ∧ ∀ b ∈ l1, p b = false := by
  intro l
  induction l with
  | nil => intro a h; simp [List.find?] at h
  | cons x xs ih =>
      intro a h
      by_cases hx : p x
      · refine ⟨[], xs, ?_, by simp⟩
        rw [List.find?_cons_of_pos _ hx] at h
        simp_all
      · rw [List.find?_cons_of_neg _ hx] at h
        obtain ⟨l1, l2, rfl, hall⟩ := ih h
        exact ⟨x :: l1, l2, rfl, by
          intro b hb
          rcases List.mem_cons.1 hb with rfl | hb2
          · simpa using hx
          · exact hall b hb2⟩

theorem amazonEligible_true_iff (matched : List Nat) (date : Date)
    (amountAbs : ℚ) (o : AmazonOrder) :
    amazonEligible matched date amountAbs o = true ↔
      o.id ∉ matched ∧ 0 ≤ dateDiffDays date o.date ∧
        dateDiffDays date o.date ≤ 7 ∧ |o.total - amountAbs| < 1 / 100 := by
  have h100 : Rat.divInt 1 100 = (1 : ℚ) / 100 := by
    rw [Rat.divInt_eq_div]; norm_num
  simp [amazonEligible, and_assoc, List.contains, h100]

theorem applyAmazonMatch_ids (orders : List AmazonOrder) (matched : List Nat)
    (date : Date) (amount : ℚ) (description : String) :
    (∀ x ∈ matched, x ∈ (applyAmazonMatch orders matched date amount description).2.2) ∧
    (∀ i, (applyAmazonMatch orders matched date amount description).2.1 = some i →
      i ∉ matched ∧ i ∈ (applyAmazonMatch orders matched date amount description).2.2 ∧
        ∃ o ∈ orders, o.id = i ∧ 0 ≤ dateDiffDays date o.date ∧
          dateDiffDays date o.date ≤ 7 ∧ abs (o.total - |amount|) < 1 / 100) := by
  unfold applyAmazonMatch
  by_cases hA : isAmazonTransaction description
  · simp only [hA, if_true]
    cases hF : findAmazonOrder orders matched date amount with
    | none => simp
    | some o =>
        rw [findAmazonOrder_eq_find?] at hF
        have hElig := List.find?_some hF
        have hMem := List.mem_of_find?_eq_some hF
        rw [amazonEligible_true_iff] at hElig
        constructor
        · intro x hx
          simp [List.mem_cons, hx]
        · intro i hi
          simp only [Option.some.injEq] at hi
          subst hi
          exact ⟨hElig.1, by simp, o, hMem, rfl, hElig.2.1, hElig.2.2.1, hElig.2.2.2⟩
  · simp [hA]

theorem processRowDict_spec {cfg : ParseConfig} {source : String}
    {orders : List AmazonOrder} {matched : List Nat} {row : RowDict}
    {t : Txn} {matched2 : List Nat}
    (h : processRowDict cfg source orders matched row = .ok t matched2) :
    (∀ x ∈ matched, x ∈ matched2) ∧
    (∀ i, t.amazon_order_id = some i →
      i ∉ matched ∧ i ∈ matched2 ∧
        ∃ o ∈ orders, o.id = i ∧ 0 ≤ dateDiffDays t.date o.date ∧
          dateDiffDays t.date o.date ≤ 7 ∧ abs (o.total - |t.amount|) < 1 / 100) := by
  cases hD : lookupRow row cfg.date_col with
  | none => simp [processRowDict, hD] at h
  | some cellDate =>
  cases cellDate with
  | none => simp [processRowDict, hD] at h
  | some rawDate =>
  cases hS : lookupRow row cfg.desc_col with
  | none => simp [processRowDict, hD, hS] at h
  | some cellDesc =>
  cases cellDesc with
  | none => simp [processRowDict, hD, hS] at h
  | some rawDesc =>
  cases hAmt : computeAmountDict cfg row with
  | skipRow => simp [processRowDict, hD, hS, hAmt] at h
  | fileError => simp [processRowDict, hD, hS, hAmt] at h
  | ok amount =>
  cases hDate : strptime (stripS rawDate) cfg.date_format with
  | none => simp [processRowDict, hD, hS, hAmt, hDate] at h
  | some date =>
    simp only [processRowDict, hD, hS, hAmt, hDate, DictRowOutcome.ok.injEq] at h
    obtain ⟨ht, hm⟩ := h
    have hspec := applyAmazonMatch_ids orders matched date amount (stripS rawDesc)
    subst ht
    subst hm
    exact hspec

theorem parseFoldDict_none (cfg : ParseConfig) (source : String)
    (orders : List AmazonOrder) :
    ∀ rows : List RowDict,
      rows.foldl (parseStepDict cfg source orders) none = none := by
  intro rows
  induction rows with
  | nil => rfl
  | cons row rows ih => simpa [parseStepDict] using ih

theorem parseFoldDict_invariant (cfg : ParseConfig) (source : String)
    (orders : List AmazonOrder) :
    ∀ (rows : List RowDict) (ts : List Txn) (matched : List Nat)
      (ts2 : List Txn) (m2 : List Nat),
      rows.foldl (parseStepDict cfg source orders) (some (ts, matched))
        = some (ts2, m2) →
      (∀ t ∈ ts, ∀ i, t.amazon_order_id = some i → i ∈ matched) →
      List.Pairwise
        (fun a b => ∀ i, a.amazon_order_id = some i → b.amazon_order_id ≠ some i) ts →
      (∀ t ∈ ts, ∀ i, t.amazon_order_id = some i →
        ∃ o ∈ orders, o.id = i ∧ 0 ≤ dateDiffDays t.date o.date ∧
          dateDiffDays t.date o.date ≤ 7 ∧ abs (o.total - |t.amount|) < 1 / 100) →
      ((∀ t ∈ ts2, ∀ i, t.amazon_order_id = some i → i ∈ m2) ∧
       List.Pairwise
         (fun a b => ∀ i, a.amazon_order_id = some i → b.amazon_order_id ≠ some i) ts2 ∧
       (∀ t ∈ ts2, ∀ i, t.amazon_order_id = some i →
         ∃ o ∈ orders, o.id = i ∧ 0 ≤ dateDiffDays t.date o.date ∧
           dateDiffDays t.date o.date ≤ 7 ∧ abs (o.total - |t.amount|) < 1 / 100)) := by
  intro rows
  induction rows with
  | nil =>
      intro ts matched ts2 m2 h h1 h2 h3
      simp only [List.foldl_nil, Option.some.injEq, Prod.mk.injEq] at h
      obtain ⟨rfl, rfl⟩ := h
      exact ⟨h1, h2, h3⟩
  | cons row rows ih =>
      intro ts matched ts2 m2 h h1 h2 h3
      simp only [List.foldl_cons] at h
      cases hp : processRowDict cfg source orders matched row with
      | skipRow =>
          rw [show parseStepDict cfg source orders (some (ts, matched)) row
              = some (ts, matched) by simp [parseStepDict, hp]] at h
          exact ih ts matched ts2 m2 h h1 h2 h3
      | fileError =>
          rw [show parseStepDict cfg source orders (some (ts, matched)) row
              = none by simp [parseStepDict, hp]] at h
          rw [parseFoldDict_none cfg source orders rows] at h
          exact absurd h (by simp)
      | ok t mt =>
          rw [show parseStepDict cfg source orders (some (ts, matched)) row
              = some (ts ++ [t], mt) by simp [parseStepDict, hp]] at h
          have hspec := processRowDict_spec hp
          apply ih (ts ++ [t]) mt ts2 m2 h
          · intro u hu i hi
            rcases List.mem_append.1 hu with hu1 | hu2
            · exact hspec.1 i (h1 u hu1 i hi)
            · simp only [List.mem_singleton] at hu2
              subst hu2
              exact (hspec.2 i hi).2.1
          · rw [List.pairwise_append]
            refine ⟨h2, by simp, ?_⟩
            intro a ha b hb i hai
            simp only [List.mem_singleton] at hb
            subst hb
            intro hbi
            exact ((hspec.2 i hbi).1) (h1 a ha i hai)
          · intro u hu i hi
            rcases List.mem_append.1 hu with hu1 | hu2
            · exact h3 u hu1 i hi
            · simp only [List.mem_singleton] at hu2
              subst hu2
              exact (hspec.2 i hi).2.2

theorem categorizeTxn_preserves (m : Mappings) (t : Txn) :
    (categorizeTxn m t).amazon_order_id = t.amazon_order_id ∧
    (categorizeTxn m t).date = t.date ∧
    (categorizeTxn m t).amount = t.amount ∧
    (categorizeTxn m t).description = t.description ∧
    (categorizeTxn m t).source = t.source := by
  unfold categorizeTxn
  by_cases h : t.category = none
  · simp only [h, if_true]
    cases lookupMapping m (normalize_description t.description) <;> simp
  · simp [h]

/-- C1.  Amazon matching is at-most-one-to-one: for every sequence of
transactions reconciled against a loaded order pool (here: any
header-based CSV parse that completes, from any initial consumed set),
no two produced transactions carry the same non-null `amazon_order_id`,
and every transaction that carries one was matched to an order of the
pool whose date precedes the transaction date by 0 to 7 days and whose
total is within 0.01 of the absolute transaction amount. -/
theorem amazon_matching_at_most_one_to_one (cfg : ParseConfig) (source : String)
    (orders : List AmazonOrder) (matched0 : List Nat) (m : Mappings)
    (rows : List RowDict) (ts : List Txn) (mf : List Nat)
    (h : parseCsvDict cfg source orders matched0 m rows = some (ts, mf)) :
    List.Pairwise
      (fun a b => ∀ i, a.amazon_order_id = some i → b.amazon_order_id ≠ some i) ts ∧
    (∀ t ∈ ts, ∀ i, t.amazon_order_id = some i →
        ∃ o ∈ orders, o.id = i ∧ 0 ≤ dateDiffDays t.date o.date ∧
          dateDiffDays t.date o.date ≤ 7 ∧ abs (o.total - |t.amount|) < 1 / 100) := by
  unfold parseCsvDict at h
  cases hf : rows.foldl (parseStepDict cfg source orders) (some ([], matched0)) with
  | none => rw [hf] at h; simp at h
  | some p =>
      obtain ⟨ts0, m0⟩ := p
      rw [hf] at h
      simp only [Option.some.injEq, Prod.mk.injEq] at h
      obtain ⟨rfl, rfl⟩ : ts0.map (categorizeTxn m) = ts ∧ m0 = mf := h
      have hinv := parseFoldDict_invariant cfg source orders rows [] matched0 ts0 m0
        hf (by simp) (by simp) (by simp)
      obtain ⟨-, hpw, helig⟩ := hinv
      constructor
      · simp only [List.pairwise_map]
        apply hpw.imp
        intro a b hab i hai hbi
        rcases categorizeTxn_preserves m a with ⟨ha, -⟩
        rcases categorizeTxn_preserves m b with ⟨hb, -⟩
        rw [ha] at hai
        rw [hb] at hbi
        exact hab i hai hbi
      · simp only [List.mem_map]
        rintro t ⟨u, hu, rfl⟩ i hi
        rcases categorizeTxn_preserves m u with ⟨hid, hdate, hamt, -⟩
        rw [hid] at hi
        rw [hdate, hamt]
        exact helig u hu i hi

/-- Witness for C1: a one-row parse that completes; the produced
transactions carry pairwise-distinct (here: no) order ids. -/
theorem amazon_matching_at_most_one_to_one_witness :
    List.Pairwise
      (fun (a b : Txn) => ∀ i, a.amazon_order_id = some i → b.amazon_order_id ≠ some i)
      [{ date := ⟨2024, 1, 15⟩, description := "COFFEE", amount := -(mkRat 450 100),
         category := some "Uncategorized", source := "chase",
         amazon_order_id := none }] ∧
    (∀ t ∈ [({ date := ⟨2024, 1, 15⟩, description := "COFFEE",
               amount := -(mkRat 450 100), category := some "Uncategorized",
               source := "chase", amazon_order_id := none } : Txn)],
      ∀ i, t.amazon_order_id = some i →
        ∃ o ∈ ([] : List AmazonOrder), o.id = i ∧
          0 ≤ dateDiffDays t.date o.date ∧ dateDiffDays t.date o.date ≤ 7 ∧
          abs (o.total - |t.amount|) < 1 / 100) :=
  amazon_matching_at_most_one_to_one
    { date_col := "Transaction Date", desc_col := "Description", amount_col := "Amount",
      date_format := "%m/%d/%Y", invert_amounts := false,
      debit_col := none, credit_col := none } "chase" [] [] []
    [[("Transaction Date", some "01/15/2024"), ("Description", some "COFFEE"),
      ("Amount", some "-4.50")]]
    [{ date := ⟨2024, 1, 15⟩, description := "COFFEE", amount := -(mkRat 450 100),
       category := some "Uncategorized", source := "chase",
       amazon_order_id := none }] [] (by decide)

theorem sumExp_mdUpdate_addExp (k : Int × Int) (a : ℚ) :
    ∀ m : List ((Int × Int) × MonthTotals),
      sumMonthlyExpenses (mdUpdate m k (fun v => { v with expenses := v.expenses + a }))
        = sumMonthlyExpenses m + a := by
  intro m
  induction m with
  | nil => simp [mdUpdate, sumMonthlyExpenses]
  | cons p rest ih =>
      obtain ⟨k2, v⟩ := p
      by_cases h : k2 = k <;>
        simp [mdUpdate, h, sumMonthlyExpenses] at ih ⊢ <;> linarith

theorem sumExp_mdUpdate_addInc (k : Int × Int) (a : ℚ) :
    ∀ m : List ((Int × Int) × MonthTotals),
      sumMonthlyExpenses (mdUpdate m k (fun v => { v with income := v.income + a }))
        = sumMonthlyExpenses m := by
  intro m
  induction m with
  | nil => simp [mdUpdate, sumMonthlyExpenses]
  | cons p rest ih =>
      obtain ⟨k2, v⟩ := p
      by_cases h : k2 = k <;>
        simp [mdUpdate, h, sumMonthlyExpenses] at ih ⊢ <;> linarith

theorem sumInc_mdUpdate_addExp (k : Int × Int) (a : ℚ) :
    ∀ m : List ((Int × Int) × MonthTotals),
      sumMonthlyIncome (mdUpdate m k (fun v => { v with expenses := v.expenses + a }))
        = sumMonthlyIncome m := by
  intro m
  induction m with
  | nil => simp [mdUpdate, sumMonthlyIncome]
  | cons p rest ih =>
      obtain ⟨k2, v⟩ := p
      by_cases h : k2 = k <;>
        simp [mdUpdate, h, sumMonthlyIncome] at ih ⊢ <;> linarith

theorem sumInc_mdUpdate_addInc (k : Int × Int) (a : ℚ) :
    ∀ m : List ((Int × Int) × MonthTotals),
      sumMonthlyIncome (mdUpdate m k (fun v => { v with income := v.income + a }))
        = sumMonthlyIncome m + a := by
  intro m
  induction m with
  | nil => simp [mdUpdate, sumMonthlyIncome]
  | cons p rest ih =>
      obtain ⟨k2, v⟩ := p
      by_cases h : k2 = k <;>
        simp [mdUpdate, h, sumMonthlyIncome] at ih ⊢ <;> linarith

theorem summaryFold_sums (payCats expCats : List String) :
    ∀ (txns : List Txn) (acc : SummaryAcc),
      (∀ t ∈ txns, t.category ≠ some ignoreCategory) →
      sumMonthlyExpenses ((txns.foldl (summaryStep payCats expCats) acc).monthly)
        = sumMonthlyExpenses acc.monthly
          + ((txns.filter
              (fun t => !optMem t.category payCats && decide (t.amount < 0))).map
                (fun t => |t.amount|)).sum ∧
      sumMonthlyIncome ((txns.foldl (summaryStep payCats expCats) acc).monthly)
        = sumMonthlyIncome acc.monthly
          + ((txns.filter
              (fun t => !optMem t.category payCats && decide (0 ≤ t.amount))).map
                (fun t => t.amount)).sum := by
  intro txns
  induction txns with
  | nil => intro acc _; simp
  | cons t rest ih =>
      intro acc hni
      have hnt : t.category ≠ some ignoreCategory := hni t (by simp)
      have hrest : ∀ u ∈ rest, u.category ≠ some ignoreCategory := by
        intro u hu; exact hni u (by simp [hu])
      simp only [List.foldl_cons]
      by_cases hpay : optMem t.category payCats
      · have hstep : summaryStep payCats expCats acc t
            = { acc with payments := acc.payments ++ [t] } := by
          simp [summaryStep, hnt, hpay]
        obtain ⟨h1, h2⟩ := ih (summaryStep payCats expCats acc t) hrest
        rw [h1, h2, hstep]
        simp [List.filter_cons, hpay]
      · by_cases hneg : t.amount < 0
        · have hstep : summaryStep payCats expCats acc t
              = { acc with
                  expenses := acc.expenses ++ [t],
                  monthly := mdUpdate acc.monthly (monthKey t.date)
                    (fun v => { v with expenses := v.expenses + |t.amount| }),
                  breakdown :=
                    if optMem t.category expCats then
                      bdUpdate expCats acc.breakdown (monthKey t.date)
                        ((t.category).getD "") |t.amount|
                    else acc.breakdown } := by
            simp [summaryStep, hnt, hpay, hneg]
          obtain ⟨h1, h2⟩ := ih (summaryStep payCats expCats acc t) hrest
          rw [h1, h2, hstep]
          have hge : ¬(0 ≤ t.amount) := not_le.mpr hneg
          constructor
          · rw [sumExp_mdUpdate_addExp]
            simp [List.filter_cons, hpay, hneg, hge]
            ring
          · rw [sumInc_mdUpdate_addExp]
            simp [List.filter_cons, hpay, hneg, hge]
        · have hstep : summaryStep payCats expCats acc t
              = { acc with
                  income := acc.income ++ [t],
                  monthly := mdUpdate acc.monthly (monthKey t.date)
                    (fun v => { v with income := v.income + t.amount }) } := by
            simp [summaryStep, hnt, hpay, hneg]
          obtain ⟨h1, h2⟩ := ih (summaryStep payCats expCats acc t) hrest
          rw [h1, h2, hstep]
          have hge : 0 ≤ t.amount := not_lt.mp hneg
          constructor
          · rw [sumExp_mdUpdate_addInc]
            simp [List.filter_cons, hpay, hneg, hge]
          · rw [sumInc_mdUpdate_addInc]
            simp [List.filter_cons, hpay, hneg, hge]
            ring

/-- C2.  Aggregation totals reconcile: for a transaction set without the
`Ignore` sentinel, the per-month expense totals of `generate_summary` sum
to the total of `|amount|` over negative-amount non-payment transactions,
and the per-month income totals sum to the total of `amount` over
nonnegative-amount non-payment transactions. -/
theorem aggregation_totals_reconcile (payCats expCats : List String)
    (txns : List Txn) (hni : ∀ t ∈ txns, t.category ≠ some ignoreCategory) :
    sumMonthlyExpenses (generate_summary payCats expCats txns).monthly
      = ((txns.filter
          (fun t => !optMem t.category payCats && decide (t.amount < 0))).map
            (fun t => |t.amount|)).sum ∧
    sumMonthlyIncome (generate_summary payCats expCats txns).monthly
      = ((txns.filter
          (fun t => !optMem t.category payCats && decide (0 ≤ t.amount))).map
            (fun t => t.amount)).sum := by
  have h := summaryFold_sums payCats expCats txns
    { expenses := [], income := [], payments := [], monthly := [], breakdown := [] } hni
  unfold generate_summary
  simpa [sumMonthlyExpenses, sumMonthlyIncome] using h

/-- Witness for C2 at a concrete three-transaction input. -/
theorem aggregation_totals_reconcile_witness :
    sumMonthlyExpenses (generate_summary ["Card Payment"] ["Groceries"]
        [{ date := ⟨2024, 1, 5⟩, description := "a", amount := -10,
           category := some "Groceries", source := "s", amazon_order_id := none },
         { date := ⟨2024, 2, 5⟩, description := "b", amount := 7,
           category := some "Salary", source := "s", amazon_order_id := none },
         { date := ⟨2024, 1, 9⟩, description := "c", amount := -3,
           category := some "Card Payment", source := "s", amazon_order_id := none }]).monthly
      = 10 := by
  have h := aggregation_totals_reconcile ["Card Payment"] ["Groceries"]
    [{ date := ⟨2024, 1, 5⟩, description := "a", amount := -10,
       category := some "Groceries", source := "s", amazon_order_id := none },
     { date := ⟨2024, 2, 5⟩, description := "b", amount := 7,
       category := some "Salary", source := "s", amazon_order_id := none },
     { date := ⟨2024, 1, 9⟩, description := "c", amount := -3,
       category := some "Card Payment", source := "s", amazon_order_id := none }]
    (by decide)
  rw [h.1]
  simp +decide [List.filter_cons, optMem]

/-- C3 counterexample.  The claim states the selected order's item text
always replaces the description; but for an order whose loaded item text
is empty the source's truthiness test `if amazon_items:` keeps the
original description even though the order is selected: its id is
assigned and it is consumed. -/
theorem amazon_empty_items_description_kept :
    applyAmazonMatch [{ id := 0, date := ⟨2024, 1, 10⟩, total := 5, items := "" }]
        [] ⟨2024, 1, 12⟩ (-5) "AMAZON.COM ORDER"
      = ("AMAZON.COM ORDER", some 0, [0]) ∧
    ("AMAZON.COM ORDER" : String)
      ≠ ({ id := 0, date := ⟨2024, 1, 10⟩, total := 5, items := "" } : AmazonOrder).items := by
  have hE : amazonEligible [] ⟨2024, 1, 12⟩ (5 : ℚ)
      { id := 0, date := ⟨2024, 1, 10⟩, total := 5, items := "" } = true := by
    norm_num [amazonEligible, dateDiffDays, toOrdinal, Rat.divInt_eq_div, List.contains]
  have hF : findAmazonOrder [{ id := 0, date := ⟨2024, 1, 10⟩, total := 5, items := "" }]
      [] ⟨2024, 1, 12⟩ (-5) = some { id := 0, date := ⟨2024, 1, 10⟩, total := 5, items := "" } := by
    rw [findAmazonOrder_eq_find?]
    simp [List.find?, hE]
  constructor
  · have hA : isAmazonTransaction "AMAZON.COM ORDER" = true := by decide
    simp [applyAmazonMatch, hA, hF]
  · decide

/-- C3 (amended).  For every Amazon-looking transaction: when the pool
has an eligible unconsumed order, a match is found; any found match is
the first eligible order in pool load order, its id is recorded on the
transaction and added to the consumed set, and the description is
replaced by the order's item text when that text is non-empty (the
source keeps the original description for an empty item text); when no
order is eligible the transaction is left unchanged. -/
theorem amazon_first_fit_amended (orders : List AmazonOrder) (matched : List Nat)
    (date : Date) (amount : ℚ) (description : String)
    (hA : isAmazonTransaction description = true) :
    ((∃ o ∈ orders, amazonEligible matched date (|amount|) o = true) →
      (findAmazonOrder orders matched date amount).isSome) ∧
    (∀ o, findAmazonOrder orders matched date amount = some o →
      (amazonEligible matched date (|amount|) o = true ∧
        ∃ l1 l2, orders = l1 ++ o :: l2 ∧
          ∀ b ∈ l1, amazonEligible matched date (|amount|) b = false) ∧
      applyAmazonMatch orders matched date amount description
        = (if o.items ≠ "" then o.items else description, some o.id, o.id :: matched)) ∧
    (findAmazonOrder orders matched date amount = none →
      applyAmazonMatch orders matched date amount description
        = (description, none, matched)) := by
  refine ⟨?_, ?_, ?_⟩
  · rintro ⟨o, ho, helig⟩
    rw [findAmazonOrder_eq_find?]
    cases hF : List.find? (amazonEligible matched date |amount|) orders with
    | some o2 => simp
    | none =>
        rw [List.find?_eq_none] at hF
        exact absurd helig (by simpa using hF o ho)
  · intro o hF
    constructor
    · rw [findAmazonOrder_eq_find?] at hF
      exact ⟨List.find?_some hF, find?_split hF⟩
    · simp [applyAmazonMatch, hA, hF]
  · intro hF
    simp [applyAmazonMatch, hA, hF]

/-- Witness for C3's amended theorem: a two-order pool where the first
order is too old, so the second (first eligible) is selected, consumed,
and its item text replaces the description. -/
theorem amazon_first_fit_amended_witness :
    applyAmazonMatch
        [{ id := 0, date := ⟨2023, 11, 2⟩, total := 5, items := "Old stuff" },
         { id := 1, date := ⟨2024, 1, 10⟩, total := 5, items := "Blue widget" }]
        [] ⟨2024, 1, 12⟩ (-5) "AMAZON.COM ORDER"
      = ("Blue widget", some 1, [1]) := by
  have h := (amazon_first_fit_amended
    [{ id := 0, date := ⟨2023, 11, 2⟩, total := 5, items := "Old stuff" },
     { id := 1, date := ⟨2024, 1, 10⟩, total := 5, items := "Blue widget" }]
    [] ⟨2024, 1, 12⟩ (-5) "AMAZON.COM ORDER" (by decide)).2.1
  have hd0 : decide (dateDiffDays ⟨2024, 1, 12⟩ ⟨2023, 11, 2⟩ ≤ 7) = false := by decide
  have hE0 : amazonEligible [] ⟨2024, 1, 12⟩ (5 : ℚ)
      { id := 0, date := ⟨2023, 11, 2⟩, total := 5, items := "Old stuff" } = false := by
    simp only [amazonEligible, hd0, Bool.false_and, Bool.and_false]
  have hE1 : amazonEligible [] ⟨2024, 1, 12⟩ (5 : ℚ)
      { id := 1, date := ⟨2024, 1, 10⟩, total := 5, items := "Blue widget" } = true := by
    norm_num [amazonEligible, dateDiffDays, toOrdinal, Rat.divInt_eq_div, List.contains]
  have hF : findAmazonOrder
      [{ id := 0, date := ⟨2023, 11, 2⟩, total := 5, items := "Old stuff" },
       { id := 1, date := ⟨2024, 1, 10⟩, total := 5, items := "Blue widget" }]
      [] ⟨2024, 1, 12⟩ (-5)
      = some { id := 1, date := ⟨2024, 1, 10⟩, total := 5, items := "Blue widget" } := by
    rw [findAmazonOrder_eq_find?]
    simp [List.find?, hE0, hE1]
  have h2 := (h _ hF).2
  rw [h2]
  simp

theorem processRowDict_amount_eq {cfg : ParseConfig} {source : String}
    {orders : List AmazonOrder} {matched : List Nat} {row : RowDict}
    {t : Txn} {matched2 : List Nat}
    (h : processRowDict cfg source orders matched row = .ok t matched2) :
    computeAmountDict cfg row = .ok t.amount := by
  cases hD : lookupRow row cfg.date_col with
  | none => simp [processRowDict, hD] at h
  | some cellDate =>
  cases cellDate with
  | none => simp [processRowDict, hD] at h
  | some rawDate =>
  cases hS : lookupRow row cfg.desc_col with
  | none => simp [processRowDict, hD, hS] at h
  | some cellDesc =>
  cases cellDesc with
  | none => simp [processRowDict, hD, hS] at h
  | some rawDesc =>
  cases hAmt : computeAmountDict cfg row with
  | skipRow => simp [processRowDict, hD, hS, hAmt] at h
  | fileError => simp [processRowDict, hD, hS, hAmt] at h
  | ok amount =>
  cases hDate : strptime (stripS rawDate) cfg.date_format with
  | none => simp [processRowDict, hD, hS, hAmt, hDate] at h
  | some date =>
    simp only [processRowDict, hD, hS, hAmt, hDate, DictRowOutcome.ok.injEq] at h
    rw [← h.1]

theorem computeAmountDict_debit_credit {cfg : ParseConfig} (row : RowDict)
    (hd : truthyOpt cfg.debit_col = true) (hc : truthyOpt cfg.credit_col = true) :
    computeAmountDict cfg row =
      (match cleanedCell row cfg.debit_col, cleanedCell row cfg.credit_col with
       | some debitStr, some creditStr =>
           if !debitStr.isEmpty then
             (match pyFloat? debitStr with
              | some q => AmountResult.ok (-|q|)
              | none => AmountResult.skipRow)
           else if !creditStr.isEmpty then
             (match pyFloat? creditStr with
              | some q => AmountResult.ok |q|
              | none => AmountResult.skipRow)
           else AmountResult.skipRow
       | _, _ => AmountResult.fileError) := by
  unfold computeAmountDict
  rw [hd, hc]
  simp

/-- C4.  With a truthy debit/credit column pair, on text-valued cells: a
row whose cleaned debit cell is non-empty normalizes (when the row
succeeds) to `amount = -|debit|`; with an empty debit cell and a
non-empty credit cell to `amount = +|credit|`; and with both cells
empty the amount extraction skips the row — it never yields a
transaction. -/
theorem debit_credit_normalization (cfg : ParseConfig) (source : String)
    (orders : List AmazonOrder) (matched : List Nat) (row : RowDict)
    (hd : truthyOpt cfg.debit_col = true) (hc : truthyOpt cfg.credit_col = true) :
    (∀ q ds, cleanedCell row cfg.debit_col = some ds → ds ≠ [] →
      pyFloat? ds = some q →
      ∀ t m2, processRowDict cfg source orders matched row = .ok t m2 →
        t.amount = -|q|) ∧
    (∀ q cs2, cleanedCell row cfg.debit_col = some [] →
      cleanedCell row cfg.credit_col = some cs2 → cs2 ≠ [] →
      pyFloat? cs2 = some q →
      ∀ t m2, processRowDict cfg source orders matched row = .ok t m2 →
        t.amount = |q|) ∧
    (cleanedCell row cfg.debit_col = some [] →
      cleanedCell row cfg.credit_col = some [] →
      computeAmountDict cfg row = .skipRow ∧
      ∀ t m2, processRowDict cfg source orders matched row ≠ .ok t m2) := by
  refine ⟨?_, ?_, ?_⟩
  · intro q ds hds hne hq t m2 hrow
    have hAmt := processRowDict_amount_eq hrow
    rw [computeAmountDict_debit_credit row hd hc, hds] at hAmt
    cases hcs : cleanedCell row cfg.credit_col with
    | none => rw [hcs] at hAmt; simp at hAmt
    | some cs2 =>
        rw [hcs] at hAmt
        simp only [show (!ds.isEmpty) = true by simpa using hne, if_true, hq,
          AmountResult.ok.injEq] at hAmt
        exact hAmt.symm
  · intro q cs2 hds hcs hne hq t m2 hrow
    have hAmt := processRowDict_amount_eq hrow
    rw [computeAmountDict_debit_credit row hd hc, hds, hcs] at hAmt
    simp only [List.isEmpty_nil, Bool.not_true, Bool.false_eq_true, if_false,
      show (!cs2.isEmpty) = true by simpa using hne, if_true, hq,
      AmountResult.ok.injEq] at hAmt
    exact hAmt.symm
  · intro hds hcs
    have hskip : computeAmountDict cfg row = .skipRow := by
      rw [computeAmountDict_debit_credit row hd hc, hds, hcs]
      simp
    refine ⟨hskip, ?_⟩
    intro t m2 hrow
    have hAmt := processRowDict_amount_eq hrow
    rw [hskip] at hAmt
    exact absurd hAmt (by simp)

/-- Witness for C4: a Capital One-style row with debit `$1,234.00` gives
amount `-|1234|`, and a row with both cells empty is skipped by the
amount extraction. -/
theorem debit_credit_normalization_witness :
    ({ date := ⟨2024, 3, 1⟩, description := "GROCERY", amount := -1234, category := none,
       source := "cap", amazon_order_id := none } : Txn).amount = -|(1234 : ℚ)| ∧
    computeAmountDict
      { date_col := "Transaction Date", desc_col := "Description", amount_col := "",
        date_format := "%m/%d/%Y", invert_amounts := false,
        debit_col := some "Debit", credit_col := some "Credit" }
      [("Transaction Date", some "03/01/2024"), ("Description", some "GROCERY"),
       ("Debit", some ""), ("Credit", some "")] = .skipRow := by
  constructor
  · exact (debit_credit_normalization
      { date_col := "Transaction Date", desc_col := "Description", amount_col := "",
        date_format := "%m/%d/%Y", invert_amounts := false,
        debit_col := some "Debit", credit_col := some "Credit" } "cap" [] []
      [("Transaction Date", some "03/01/2024"), ("Description", some "GROCERY"),
       ("Debit", some "$1,234.00"), ("Credit", some "")] (by decide) (by decide)).1
      1234 "1234.00".toList (by decide) (by decide) (by decide)
      { date := ⟨2024, 3, 1⟩, description := "GROCERY", amount := -1234, category := none,
        source := "cap", amazon_order_id := none } [] (by decide)
  · exact ((debit_credit_normalization
      { date_col := "Transaction Date", desc_col := "Description", amount_col := "",
        date_format := "%m/%d/%Y", invert_amounts := false,
        debit_col := some "Debit", credit_col := some "Credit" } "cap" [] []
      [("Transaction Date", some "03/01/2024"), ("Description", some "GROCERY"),
       ("Debit", some ""), ("Credit", some "")] (by decide) (by decide)).2.2
      (by decide) (by decide)).1

theorem isWhitespace_eq_false_of_isDigit {c : Char} (h : c.isDigit = true) :
    c.isWhitespace = false := by
  cases hw : c.isWhitespace with
  | false => rfl
  | true =>
      exfalso
      simp only [Char.isWhitespace, Bool.or_eq_true, decide_eq_true_eq] at hw
      rcases hw with ((rfl | rfl) | rfl) | rfl <;> simp [Char.isDigit] at h

theorem dropWhile_eq_self_of_all_false {p : Char → Bool} {cs : List Char}
    (h : ∀ c ∈ cs, p c = false) : cs.dropWhile p = cs := by
  cases cs with
  | nil => rfl
  | cons a l => simp [List.dropWhile_cons, h a (by simp)]

theorem trimChars_eq_self_of_no_whitespace {cs : List Char}
    (h : ∀ c ∈ cs, c.isWhitespace = false) : trimChars cs = cs := by
  unfold trimChars
  rw [dropWhile_eq_self_of_all_false h,
    dropWhile_eq_self_of_all_false (by
      intro c hc
      exact h c (List.mem_reverse.1 hc)),
    List.reverse_reverse]

theorem parseUnsignedFloat?_chars {t : List Char} {q : ℚ}
    (h : parseUnsignedFloat? t = some q) :
    ∀ c ∈ t, c.isDigit = true ∨ c = '.' := by
  intro c hc
  have hsplit := List.takeWhile_append_dropWhile Char.isDigit t
  cases hrest : t.dropWhile Char.isDigit with
  | nil =>
      rw [hrest, List.append_nil] at hsplit
      rw [← hsplit] at hc
      exact Or.inl (List.mem_takeWhile_imp hc)
  | cons d rest2 =>
      simp only [parseUnsignedFloat?, hrest] at h
      split at h
      · rename_i heq
        exact absurd heq (by simp)
      · rename_i rest3 heq
        obtain ⟨rfl, rfl⟩ : d = '.' ∧ rest2 = rest3 := by
          cases heq
          exact ⟨rfl, rfl⟩
        rw [hrest] at hsplit
        rw [← hsplit] at hc
        rcases List.mem_append.1 hc with h1 | h2
        · exact Or.inl (List.mem_takeWhile_imp h1)
        · rcases List.mem_cons.1 h2 with rfl | h3
          · exact Or.inr rfl
          · by_cases hif : (rest2.dropWhile Char.isDigit).isEmpty
                && !((t.takeWhile Char.isDigit).isEmpty && (rest2.takeWhile Char.isDigit).isEmpty)
            · have h1 := hif
              simp only [Bool.and_eq_true] at h1
              have hnil : rest2.dropWhile Char.isDigit = [] := by
                simpa using h1.1
              exact Or.inl (List.dropWhile_eq_nil_iff.mp hnil c h3)
            · rw [if_neg hif] at h
              exact absurd h (by simp)
      · exact absurd h (by simp)

theorem pyFloat?_neg_of_unsigned {t : List Char} {q : ℚ}
    (h : parseUnsignedFloat? t = some q) :
    pyFloat? ('-' :: t) = some (-q) := by
  have hchars := parseUnsignedFloat?_chars h
  have hnw : ∀ c ∈ ('-' :: t), c.isWhitespace = false := by
    intro c hc
    rcases List.mem_cons.1 hc with rfl | hc2
    · decide
    · rcases hchars c hc2 with hd | rfl
      · exact isWhitespace_eq_false_of_isDigit hd
      · decide
  unfold pyFloat?
  rw [trimChars_eq_self_of_no_whitespace hnw]
  simp [h]

/-- C5.  For every amount string whose cleaned form (currency symbol,
thousands separators and quote characters stripped) is a number `N`
enclosed in parentheses, single-amount normalization parses the amount
as `-N` (the `invert_amounts` negation of the configuration is applied
only after this parse). -/
theorem paren_amount_parses_negative (raw : String) (t : List Char) (q : ℚ)
    (hclean : cleanAmountChars raw = '(' :: (t ++ [')']))
    (hq : parseUnsignedFloat? t = some q) :
    parseSingleAmountRaw raw = some (-q) := by
  unfold parseSingleAmountRaw cleanSingleAmount
  rw [hclean]
  have hg : ('(' :: (t ++ [')'])).getLast? = some ')' := by
    rw [show ('(' :: (t ++ [')'])) = ('(' :: t) ++ [')'] by simp]
    exact List.getLast?_concat _
  rw [if_pos (by simp [hg])]
  have hdrop : (('(' :: (t ++ [')'])).drop 1).dropLast = t := by
    simp [List.dropLast_concat]
  rw [hdrop]
  exact pyFloat?_neg_of_unsigned hq

/-- Witness for C5: the amount cell `($12.34)` parses to `-1234/100`. -/
theorem paren_amount_parses_negative_witness :
    parseSingleAmountRaw "($12.34)" = some (-(mkRat 1234 100)) :=
  paren_amount_parses_negative "($12.34)" "12.34".toList (mkRat 1234 100)
    (by decide) (by decide)

theorem lookup_foldl_learn_untouched :
    ∀ (ls : List (String × String)) (acc : Mappings) (k : String),
      (∀ p ∈ ls, normalize_description p.1 ≠ k) →
      lookupMapping (ls.foldl (fun a p => learn a p.1 p.2) acc) k
        = lookupMapping acc k := by
  intro ls
  induction ls with
  | nil => intro acc k _; rfl
  | cons p ps ih =>
      intro acc k hk
      simp only [List.foldl_cons]
      rw [ih (learn acc p.1 p.2) k (fun r hr => hk r (by simp [hr]))]
      have hne : normalize_description p.1 ≠ k := hk p (by simp)
      have hbeq : (normalize_description p.1 == k) = false := beq_eq_false_iff_ne.mpr hne
      simp [learn, lookupMapping, List.find?, hbeq]

/-- C6.  `learn(d, c)` followed by any number of `learn` calls for
descriptions with a different normalized key, then `categorize` on a
transaction whose description normalizes like `d`, assigns `c`; and
`categorize` on a description whose normalized key was never learned
assigns the real value `"Uncategorized"`. -/
theorem learn_then_categorize (m : Mappings) (d c : String)
    (others : List (String × String))
    (hothers : ∀ p ∈ others, normalize_description p.1 ≠ normalize_description d)
    (d2 : String) (hd2 : normalize_description d2 = normalize_description d)
    (t : Txn) (hcat : t.category = none) (hdesc : t.description = d2) :
    (categorizeTxn (others.foldl (fun a p => learn a p.1 p.2) (learn m d c)) t).category
      = some c ∧
    (∀ (learns : List (String × String)) (d3 : String) (u : Txn),
      (∀ p ∈ learns, normalize_description p.1 ≠ normalize_description d3) →
      u.category = none → u.description = d3 →
      (categorizeTxn (learns.foldl (fun a p => learn a p.1 p.2) []) u).category
        = some "Uncategorized") := by
  constructor
  · have hlook := lookup_foldl_learn_untouched others (learn m d c)
      (normalize_description d) hothers
    have hself : lookupMapping (learn m d c) (normalize_description d) = some c := by
      simp [learn, lookupMapping, List.find?]
    rw [hself] at hlook
    simp [categorizeTxn, hcat, hdesc, hd2, hlook]
  · intro learns d3 u hlearns hucat hudesc
    have hlook := lookup_foldl_learn_untouched learns []
      (normalize_description d3) hlearns
    have hempty : lookupMapping ([] : Mappings) (normalize_description d3) = none := rfl
    rw [hempty] at hlook
    simp [categorizeTxn, hucat, hudesc, hlook]

/-- Witness for C6: learn maps `Whole Foods ` to `Groceries`, an
unrelated learn intervenes, and categorizing ` WHOLE FOODS` returns
`Groceries`; an unlearned description returns `Uncategorized`. -/
theorem learn_then_categorize_witness :
    (categorizeTxn
        ([("STARBUCKS #42", "Restaurants")].foldl (fun a p => learn a p.1 p.2)
          (learn [] "Whole Foods " "Groceries"))
        { date := ⟨2024, 1, 5⟩, description := " WHOLE FOODS", amount := -10,
          category := none, source := "s", amazon_order_id := none }).category
      = some "Groceries" ∧
    (categorizeTxn
        ([("STARBUCKS #42", "Restaurants")].foldl (fun a p => learn a p.1 p.2) [])
        { date := ⟨2024, 1, 5⟩, description := "SHELL GAS", amount := -10,
          category := none, source := "s", amazon_order_id := none }).category
      = some "Uncategorized" := by
  have h := learn_then_categorize [] "Whole Foods " "Groceries"
    [("STARBUCKS #42", "Restaurants")] (by decide) " WHOLE FOODS" (by decide)
    { date := ⟨2024, 1, 5⟩, description := " WHOLE FOODS", amount := -10,
      category := none, source := "s", amazon_order_id := none } rfl rfl
  exact ⟨h.1, h.2 [("STARBUCKS #42", "Restaurants")] "SHELL GAS"
    { date := ⟨2024, 1, 5⟩, description := "SHELL GAS", amount := -10,
      category := none, source := "s", amazon_order_id := none } (by decide) rfl rfl⟩

theorem find?_filter_and {α : Type} (p q : α → Bool) :
    ∀ l : List α, l.find? (fun x => p x && q x) = (l.filter p).find? q := by
  intro l
  induction l with
  | nil => rfl
  | cons a l ih =>
      by_cases hp : p a
      · by_cases hq : q a
        · rw [List.find?_cons_of_pos _ (by simp [hp, hq]), List.filter_cons_of_pos hp,
            List.find?_cons_of_pos _ hq]
        · rw [List.find?_cons_of_neg _ (by simp [hp, hq]), List.filter_cons_of_pos hp,
            List.find?_cons_of_neg _ hq, ih]
      · rw [List.find?_cons_of_neg _ (by simp [hp]), List.filter_cons_of_neg hp, ih]

/-- C7.  The header pass returns the first registered configuration — in
registration order, with the `Custom` configuration and headerless
configurations excluded — whose required columns are all present
verbatim among the whitespace-trimmed headers; when no configuration
has full column coverage it finds nothing. -/
theorem header_detection_first_full_coverage (headers : List String) :
    detectHeaderPass headers
      = (bankFormatValues.filter
          (fun fmt => !(fmt.name == "Custom") && fmt.has_header)).find?
            (headerCoverage (headers.map stripS)) ∧
    ((∀ fmt ∈ bankFormatValues, headerCoverage (headers.map stripS) fmt = false) →
      detectHeaderPass headers = none) := by
  constructor
  · unfold detectHeaderPass
    exact find?_filter_and _ _ bankFormatValues
  · intro hnone
    unfold detectHeaderPass
    rw [List.find?_eq_none]
    intro fmt hmem
    simp [hnone fmt hmem]

/-- Witness for C7 at a header list covering no configuration. -/
theorem header_detection_first_full_coverage_witness :
    detectHeaderPass ["Posted Date", "Payee"] = none :=
  (header_detection_first_full_coverage ["Posted Date", "Payee"]).2 (by decide)

/-- C8.  Headerless detection runs only when the header pass found
nothing, and returns the registered headerless configuration (Wells
Fargo Bank) exactly when the sample has at least five fields, field 0
parses as a `%m/%d/%Y` date and field 1, commas stripped, parses as a
decimal number; in every other case it finds nothing, with no error
surfacing to the caller. -/
theorem headerless_detection_characterization (headers : List String) :
    detect_bank_format_from_headers headers
      = (match detectHeaderPass headers with
         | some fmt => some fmt
         | none => detectHeaderlessPass headers) ∧
    detectHeaderlessPass headers
      = (if 5 ≤ (headers.map stripS).length ∧
            (parseDateMDY ((headers.map stripS).getD 0 "").toList).isSome ∧
            (pyFloat? (removeChar ',' ((headers.map stripS).getD 1 "").toList)).isSome
         then some wellsFargoBank else none) := by
  constructor
  · by_cases hemp : headers.isEmpty
    · have hnil : headers = [] := by simpa using hemp
      subst hnil
      rfl
    · unfold detect_bank_format_from_headers
      rw [if_neg (by simpa using hemp)]
  · unfold detectHeaderlessPass
    by_cases hlen : 5 ≤ (headers.map stripS).length
    · rw [if_pos hlen]
      cases hdate : parseDateMDY ((headers.map stripS).getD 0 "").toList with
      | none => simp [hdate, hlen]
      | some dv =>
          cases hfloat : pyFloat? (removeChar ',' ((headers.map stripS).getD 1 "").toList) with
          | none => simp [hdate, hfloat, hlen]
          | some fv =>
              have hlen2 : 5 ≤ headers.length := by simpa using hlen
              simp [hdate, hfloat, hlen, hlen2, bankFormatsGet, BANK_FORMATS, List.find?]
    · rw [if_neg hlen, if_neg (fun h => hlen h.1)]

theorem parseStepList_skip {cfg : ParseConfig} {source : String}
    {orders : List AmazonOrder} {b : List String}
    (hb : ∀ mt, processRowList cfg source orders mt b = .skipRow)
    (x : Option (List Txn × List Nat)) :
    parseStepList cfg source orders x b = x := by
  cases x with
  | none => rfl
  | some p => simp [parseStepList, hb]

theorem processRowList_no_fileError {cfg : ParseConfig} {source : String}
    {orders : List AmazonOrder} {matched : List Nat} {row : List String}
    (hac : cfg.amount_col.isEmpty = false) :
    processRowList cfg source orders matched row ≠ .fileError := by
  cases hD : pyInt? cfg.date_col with
  | none => simp [processRowList, hD]
  | some dIdx =>
  cases hS : pyInt? cfg.desc_col with
  | none => simp [processRowList, hD, hS]
  | some sIdx =>
  cases hA : pyInt? cfg.amount_col with
  | none => simp [processRowList, hD, hS, hA, hac]
  | some aIdx =>
  cases h1 : listIndex? row dIdx with
  | none => simp [processRowList, hD, hS, hA, hac, h1]
  | some rawDate =>
  cases h2 : listIndex? row sIdx with
  | none => simp [processRowList, hD, hS, hA, hac, h1, h2]
  | some rawDesc =>
  cases h3 : listIndex? row aIdx with
  | none => simp [processRowList, hD, hS, hA, hac, h1, h2, h3]
  | some rawAmount =>
  cases h4 : parseSingleAmount (stripS rawAmount) cfg.invert_amounts with
  | none => simp [processRowList, hD, hS, hA, hac, h1, h2, h3, h4]
  | some amount =>
  cases h5 : strptime ((removeChar '"' (trimChars rawDate.data)).asString)
      cfg.date_format with
  | none => simp [processRowList, hD, hS, hA, hac, h1, h2, h3, h4, h5]
  | some date => simp [processRowList, hD, hS, hA, hac, h1, h2, h3, h4, h5]

theorem parseCsvList_foldl_isSome {cfg : ParseConfig} {source : String}
    {orders : List AmazonOrder} (hac : cfg.amount_col.isEmpty = false) :
    ∀ (rows : List (List String)) (x : List Txn × List Nat),
      (rows.foldl (parseStepList cfg source orders) (some x)).isSome = true := by
  intro rows
  induction rows with
  | nil => intro x; rfl
  | cons row rows ih =>
      intro x
      simp only [List.foldl_cons]
      cases hp : processRowList cfg source orders x.2 row with
      | skipRow =>
          have : parseStepList cfg source orders (some x) row = some x := by
            simp [parseStepList, hp]
          rw [this]
          exact ih x
      | fileError => exact absurd hp (processRowList_no_fileError hac)
      | ok t m2 =>
          have : parseStepList cfg source orders (some x) row = some (x.1 ++ [t], m2) := by
            simp [parseStepList, hp]
          rw [this]
          exact ih _

/-- C9 failing input.  The claim (and spec 4.2/7a) says a row-level
field-lookup failure drops only that row and the file always completes;
but a header-based row SHORTER than the header row gets `restval=None`
cells from `csv.DictReader`, and `.strip()` on such a cell
(parser.py lines 140-141, 187-188, 203) raises `AttributeError`, which
the `except (KeyError, ValueError)` of line 147 does not catch: the
whole file aborts and even the rows that had succeeded are lost.  Here
the header is `Transaction Date,Description,Amount`, the first data row
is good, and the second data row consists of a single cell, so its
description cell is `None`: the parse aborts, while the same file
without the short row completes. -/
theorem short_row_aborts_whole_file :
    parseCsvDict
      { date_col := "Transaction Date", desc_col := "Description", amount_col := "Amount",
        date_format := "%m/%d/%Y", invert_amounts := false,
        debit_col := none, credit_col := none } "chase" [] [] []
      [[("Transaction Date", some "01/15/2024"), ("Description", some "COFFEE"),
        ("Amount", some "-4.50")],
       [("Transaction Date", some "01/16/2024"), ("Description", none),
        ("Amount", none)]]
      = none ∧
    (parseCsvDict
      { date_col := "Transaction Date", desc_col := "Description", amount_col := "Amount",
        date_format := "%m/%d/%Y", invert_amounts := false,
        debit_col := none, credit_col := none } "chase" [] [] []
      [[("Transaction Date", some "01/15/2024"), ("Description", some "COFFEE"),
        ("Amount", some "-4.50")]]).isSome = true := by
  decide

/-- C10.  With a truthy debit/credit column pair the `invert_amounts`
flag has no effect: two normalization runs of the same row that differ
only in that flag produce identical results (the flag is only read in
the single-amount-column branch). -/
theorem invert_amounts_no_effect_with_debit_credit (cfg : ParseConfig)
    (b1 b2 : Bool) (source : String) (orders : List AmazonOrder)
    (matched : List Nat) (row : RowDict)
    (hd : truthyOpt cfg.debit_col = true) (hc : truthyOpt cfg.credit_col = true) :
    processRowDict { cfg with invert_amounts := b1 } source orders matched row
      = processRowDict { cfg with invert_amounts := b2 } source orders matched row := by
  have hamt : computeAmountDict { cfg with invert_amounts := b1 } row
      = computeAmountDict { cfg with invert_amounts := b2 } row := by
    rw [@computeAmountDict_debit_credit { cfg with invert_amounts := b1 } row hd hc,
      @computeAmountDict_debit_credit { cfg with invert_amounts := b2 } row hd hc]
  unfold processRowDict
  rw [hamt]

/-- Witness for C10: a Capital One-style row normalizes identically with
the inversion flag on and off. -/
theorem invert_amounts_no_effect_with_debit_credit_witness :
    processRowDict
      { date_col := "Transaction Date", desc_col := "Description", amount_col := "",
        date_format := "%m/%d/%Y", invert_amounts := true,
        debit_col := some "Debit", credit_col := some "Credit" } "cap" [] []
      [("Transaction Date", "03/01/2024"), ("Description", "GROCERY"),
       ("Debit", "$1,234.00"), ("Credit", "")]
      = processRowDict
      { date_col := "Transaction Date", desc_col := "Description", amount_col := "",
        date_format := "%m/%d/%Y", invert_amounts := false,
        debit_col := some "Debit", credit_col := some "Credit" } "cap" [] []
      [("Transaction Date", "03/01/2024"), ("Description", "GROCERY"),
       ("Debit", "$1,234.00"), ("Credit", "")] :=
  invert_amounts_no_effect_with_debit_credit
    { date_col := "Transaction Date", desc_col := "Description", amount_col := "",
      date_format := "%m/%d/%Y", invert_amounts := false,
      debit_col := some "Debit", credit_col := some "Credit" } true false
    "cap" [] []
    [("Transaction Date", "03/01/2024"), ("Description", "GROCERY"),
     ("Debit", "$1,234.00"), ("Credit", "")] (by decide) (by decide)
